import Mathlib

/-!
Shallow embedding of `src/support.py` (DLR_DB.src): a data-access and
wrangling layer over the Domestic Load Research database.  Tables are
lists of records; pandas operations (filter, merge, unique, categorical
relabelling, sort) are modelled by executable list functions.  Fallible
code (exceptions, `print`-and-return-`None`) is modelled with
`Option`/`Except`.
-/

/-- Python `str.strip`: drop whitespace at both ends of a string. -/
def stripStr (s : String) : String :=
  ⟨((s.data.dropWhile Char.isWhitespace).reverse.dropWhile Char.isWhitespace).reverse⟩

/-- Python `str.lower`, as used in `anonAns` on the table names. -/
def lowerStr (s : String) : String :=
  ⟨s.data.map Char.toLower⟩

/-- pandas `Series.unique`: keep the first occurrence of each value.
`seen` accumulates values already emitted. -/
def uniqAux : List Int → List Int → List Int
  | [], _ => []
  | x :: xs, seen => if x ∈ seen then uniqAux xs seen else x :: uniqAux xs (x :: seen)

def uniq (l : List Int) : List Int := uniqAux l []

/-- Insert into a list sorted by the boolean comparator `le`. -/
def insertBy {α : Type} (le : α → α → Bool) (x : α) : List α → List α
  | [] => [x]
  | y :: ys => if le x y then x :: y :: ys else y :: insertBy le x ys

/-- Insertion sort by a boolean comparator; models pandas sorting
(`sort_index`, SQL `ORDER BY`).  The claims below only depend on the
result being a permutation. -/
def sortBy {α : Type} (le : α → α → Bool) : List α → List α
  | [] => []
  | x :: xs => insertBy le x (sortBy le xs)

def intLe (a b : Int) : Bool := decide (a ≤ b)

def sortInt (l : List Int) : List Int := sortBy intLe l

/-- Index of the first occurrence of `k`, as pandas uses a code's
position among the (sorted, distinct) categories. -/
def idxOfInt (k : Int) : List Int → Nat
  | [] => 0
  | x :: xs => if x = k then 0 else idxOfInt k xs + 1

/-- pandas `merge(..., how='left')` on an integer key: every left row is
kept; a row with no match (or a null key) is paired with `none`, a row
with several matches is duplicated. -/
def leftJoin {α β : Type} : List α → List β → (α → Option Int) → (β → Int) → List (α × Option β)
  | [], _, _, _ => []
  | a :: l, r, key, rkey =>
    (match key a with
     | none => [(a, none)]
     | some k =>
       match r.filter (fun b => decide (rkey b = k)) with
       | [] => [(a, none)]
       | bs => bs.map (fun b => (a, some b))) ++ leftJoin l r key rkey

/-! ## Data model -/

/-- A row of `LinkTable`. -/
structure LinkRow where
  profileID : Int
  answerID : Int
  groupID : Int
deriving DecidableEq

/-- A row of the `Groups` table (`ParentID` may be SQL NULL). -/
structure GroupRow where
  groupID : Int
  parentID : Option Int
  groupName : String
  contextID : Int
deriving DecidableEq

/-- A `Groups` row after `fillna(0)` on `ParentID` and `strip` on
`GroupName` (the first lines of `getGroups`). -/
structure NGroup where
  groupID : Int
  parentID : Int
  groupName : String
  contextID : Int
deriving DecidableEq

/-- A row of the `profiles` metadata table, restricted to the columns
`getMetaProfiles` selects.  `uom` is the numeric unit-of-measurement
code. -/
structure ProfRow where
  active : Bool
  profileId : String
  recorderID : String
  uom : Int
deriving DecidableEq

/-- A row of `ProfileUnitsOfMeasure`. -/
structure PuomRow where
  unitsID : Int
  description : String
deriving DecidableEq

/-- A calendar date, enough structure for SQL `MONTH(Datefield)` and
`ORDER BY Datefield`. -/
structure MDate where
  year : Nat
  month : Nat
  day : Nat
deriving DecidableEq

/-- A row of `Profiletable` as selected by the monthly query. -/
structure MeasRow where
  profileID : String
  datefield : MDate
  unitsread : Int
  valid : String
deriving DecidableEq

/-- A `metaprofiles` output row: after renaming `Unit of measurement`
to `UoM` and relabelling the categorical codes with descriptions. -/
structure MetaOut where
  active : Bool
  profileId : String
  recorderID : String
  uom : String
deriving DecidableEq

/-- A row of the joined output of `getProfiles` (measurement columns
merged with metadata columns, `ProfileId` dropped). -/
structure JoinedRow where
  profileID : String
  datefield : MDate
  unitsread : Int
  valid : String
  active : Bool
  recorderID : String
  uom : String
deriving DecidableEq

/-- A flattened group record (`prettyg` row after renaming): one row
per level-4 (location) group with its three ancestors.  Ancestor fields
are `none` when the corresponding left join found no parent. -/
structure FlatGroup where
  contextID : Int
  groupID_1 : Option Int
  groupID_2 : Option Int
  groupID_3 : Option Int
  groupID : Int
  dom_NonDom : Option String
  survey : Option String
  year : Option String
  location : String
deriving DecidableEq

/-- The database snapshot the module reads from. -/
structure DB where
  linktable : List LinkRow
  groups : List GroupRow
  profiles : List ProfRow
  puom : List PuomRow
  profiletable : List MeasRow

/-! ## Group Hierarchy Builder (`getGroups`) -/

def normalizeGroup (g : GroupRow) : NGroup :=
  ⟨g.groupID, g.parentID.getD 0, stripStr g.groupName, g.contextID⟩

def ngroups (db : DB) : List NGroup := db.groups.map normalizeGroup

/-- Level-1 groups: `ParentID == 0`. -/
def glevel1 (db : DB) : List NGroup := (ngroups db).filter (fun g => decide (g.parentID = 0))

def l1ids (db : DB) : List Int := (glevel1 db).map (fun g => g.groupID)

/-- Level-2 groups: `ParentID` among level-1 `GroupID`s. -/
def glevel2 (db : DB) : List NGroup :=
  (ngroups db).filter (fun g => decide (g.parentID ∈ l1ids db))

def l2ids (db : DB) : List Int := (glevel2 db).map (fun g => g.groupID)

/-- Level-3 groups: `ParentID` among level-2 `GroupID`s. -/
def glevel3 (db : DB) : List NGroup :=
  (ngroups db).filter (fun g => decide (g.parentID ∈ l2ids db))

def l3ids (db : DB) : List Int := (glevel3 db).map (fun g => g.groupID)

/-- Level-4 (location) groups: `ParentID` among level-3 `GroupID`s. -/
def glevel4 (db : DB) : List NGroup :=
  (ngroups db).filter (fun g => decide (g.parentID ∈ l3ids db))

/-- `recon3 = pd.merge(groups_level_4, g3, left_on='ParentID', right_on='GroupID', how='left')`. -/
def recon3 (db : DB) : List (NGroup × Option NGroup) :=
  leftJoin (glevel4 db) (glevel3 db) (fun a => some a.parentID) (fun b => b.groupID)

/-- `recon2 = pd.merge(recon3, g2, left_on='ParentID_3', right_on='GroupID', how='left')`. -/
def recon2 (db : DB) : List ((NGroup × Option NGroup) × Option NGroup) :=
  leftJoin (recon3 db) (glevel2 db) (fun p => p.2.map (fun b => b.parentID)) (fun b => b.groupID)

/-- `recon1 = pd.merge(recon2, g1, left_on='ParentID', right_on='GroupID', how='left')`
(the bare `ParentID` of `recon2` is the level-2 parent pointer). -/
def recon1 (db : DB) : List (((NGroup × Option NGroup) × Option NGroup) × Option NGroup) :=
  leftJoin (recon2 db) (glevel1 db) (fun p => p.2.map (fun b => b.parentID)) (fun b => b.groupID)

/-- `prettyg`: project to the 9 named columns and rename to the domain
labels. -/
def prettyg (db : DB) : List FlatGroup :=
  (recon1 db).map (fun p =>
    ⟨p.1.1.1.contextID,
     p.2.map (fun d => d.groupID),
     p.1.2.map (fun c => c.groupID),
     p.1.1.2.map (fun b => b.groupID),
     p.1.1.1.groupID,
     p.2.map (fun d => d.groupName),
     p.1.2.map (fun c => c.groupName),
     p.1.1.2.map (fun b => b.groupName),
     p.1.1.1.groupName⟩)

def optIntLe (a b : Option Int) : Bool :=
  match a, b with
  | none, none => true
  | none, some _ => false
  | some _, none => true
  | some x, some y => decide (x ≤ y)

def optIntEq (a b : Option Int) : Bool := decide (a = b)

/-- Ordering on the `(GroupID_1, GroupID_2, GroupID_3)` index used by
`sort_index` (missing keys sort last, as pandas puts NaN last). -/
def flatLe (a b : FlatGroup) : Bool :=
  if optIntEq a.groupID_1 b.groupID_1 then
    (if optIntEq a.groupID_2 b.groupID_2 then optIntLe a.groupID_3 b.groupID_3
     else optIntLe a.groupID_2 b.groupID_2)
  else optIntLe a.groupID_1 b.groupID_1

/-- `getGroups`: flatten the 4-level group tree; with a year argument,
filter the flattened table on `Year == str(year)`. -/
def getGroups (db : DB) : Option Int → List FlatGroup
  | none => sortBy flatLe (prettyg db)
  | some y => (sortBy flatLe (prettyg db)).filter (fun r => decide (r.year = some (toString y)))

/-! ## Identifier Resolver (`getProfileID`, `getAnswerID`) -/

/-- `getProfileID` with `year = None`: the filtered `LinkTable` rows
themselves (the Python function returns the dataframe, not an
identifier series, on this branch). -/
def getProfileID_all (db : DB) : List LinkRow :=
  db.linktable.filter (fun r => decide (r.groupID ≠ 0) && decide (r.profileID ≠ 0))

/-- `getProfileID` with a year: distinct `ProfileID`s of the filtered
link rows whose `GroupID` occurs in the year's flattened groups. -/
def getProfileID_year (db : DB) (y : Int) : List Int :=
  uniq (((getProfileID_all db).filter
    (fun r => decide (r.groupID ∈ (getGroups db (some y)).map (fun g => g.groupID)))).map
      (fun r => r.profileID))

/-- `getAnswerID`: filtered `LinkTable` rows with non-zero `GroupID`
and `AnswerID`. -/
def getAnswerID (db : DB) : List LinkRow :=
  db.linktable.filter (fun r => decide (r.groupID ≠ 0) && decide (r.answerID ≠ 0))

/-! ## Metadata Filter (`getMetaProfiles`) -/

/-- The year's profile identifiers mapped through `str`
(`pids = pd.Series(map(str, getProfileID(year)))`). -/
def metaPids (db : DB) (year : Int) : List String :=
  (getProfileID_year db year).map (fun p => toString p)

/-- The `profiles` rows whose `ProfileId` is among the year's profile
id strings. -/
def metaCandidates (db : DB) (year : Int) : List ProfRow :=
  db.profiles.filter (fun p => decide (p.profileId ∈ metaPids db year))

/-- The categories of the `UoM` categorical column: the distinct codes,
sorted ascending (pandas `Categorical` sorts its categories). -/
def metaCategories (db : DB) (year : Int) : List Int :=
  sortInt (uniq ((metaCandidates db year).map (fun p => p.uom)))

/-- `cats = list(puom.loc[puom.UnitsID.isin(categories), 'Description'])`. -/
def metaCats (db : DB) (year : Int) : List String :=
  (db.puom.filter (fun u => decide (u.unitsID ∈ metaCategories db year))).map
    (fun u => u.description)

/-- The label a `UoM` code receives from the positional assignment
`metaprofiles['UoM'].cat.categories = cats`: the code's position among
the sorted categories indexes into `cats`. -/
def resolveLabel (db : DB) (year : Int) (code : Int) : String :=
  (metaCats db year).getD (idxOfInt code (metaCategories db year)) ""

/-- The `metaprofiles` table after renaming and relabelling. -/
def metaRows (db : DB) (year : Int) : List MetaOut :=
  (metaCandidates db year).map
    (fun p => ⟨p.active, p.profileId, p.recorderID, resolveLabel db year p.uom⟩)

/-- The message printed for an unsupported `units` argument. -/
def checkSpellingMsg : String :=
  "Check spelling and choose V, A, kVA, Hz or kW as units, or leave blank to get profiles of all."

/-- The pandas error raised when the positional category relabelling is
given a list of the wrong length. -/
def lengthMismatchMsg : String :=
  "ValueError: new categories need to have the same number of items as the old categories"

/-- `getMetaProfiles`: fetch the year's profile metadata and the list
of profile ids matching the requested units.  `Except.error` models
both the pandas exception during relabelling and the
print-and-return-`None` branch for unsupported units. -/
def getMetaProfiles (db : DB) (year : Int) (units : Option String) :
    Except String (List MetaOut × List String) :=
  if (metaCats db year).length = (metaCategories db year).length then
    match units with
    | none => .ok (metaRows db year, (metaRows db year).map (fun m => m.profileId))
    | some u =>
      if u = "V" ∨ u = "A" ∨ u = "kVA" ∨ u = "kW" then
        .ok (metaRows db year,
          ((metaRows db year).filter (fun m => decide (m.uom = stripStr u ++ " avg"))).map
            (fun m => m.profileId))
      else if u = "Hz" then
        .ok (metaRows db year,
          ((metaRows db year).filter (fun m => decide (m.uom = "Hz"))).map
            (fun m => m.profileId))
      else .error checkSpellingMsg
  else .error lengthMismatchMsg

/-- The units lookup as the spec's data model describes it:
`UnitOfMeasurement` is resolved through the lookup table mapping the
numeric code to its human label (the `Description` of the
`ProfileUnitsOfMeasure` row carrying that `UnitsID`). -/
def lookupDescription (puom : List PuomRow) (code : Int) : Option String :=
  (puom.find? (fun r => decide (r.unitsID = code))).map (fun r => r.description)

/-- Modelled from the spec: the expected resolved label for each
supported units argument — `"kW avg"` for kW (and `"V avg"`, `"A avg"`,
`"kVA avg"` likewise), `"Hz"` for Hz — stated from the spec's words for
comparison with the code's behaviour. -/
def spec_unitLabel (u : String) : String := if u = "Hz" then "Hz" else u ++ " avg"

/-! ## Batch Assembler (`getProfiles`) -/

def dateLe (a b : MDate) : Bool :=
  decide (a.year < b.year) ||
    (decide (a.year = b.year) &&
      (decide (a.month < b.month) ||
        (decide (a.month = b.month) && decide (a.day ≤ b.day))))

def charListLe : List Char → List Char → Bool
  | [], _ => true
  | _ :: _, [] => false
  | a :: as, b :: bs => if a = b then charListLe as bs else decide (a.toNat < b.toNat)

/-- `ORDER BY pt.Datefield, pt.ProfileID`. -/
def measLe (a b : MeasRow) : Bool :=
  if a.datefield = b.datefield then charListLe a.profileID.data b.profileID.data
  else dateLe a.datefield b.datefield

/-- The monthly query: `Profiletable` rows whose `ProfileID` is in the
fetched profile list and whose `Datefield` falls in month `i`, ordered
by `(Datefield, ProfileID)`. -/
def monthQuery (db : DB) (plist : List String) (i : Nat) : List MeasRow :=
  sortBy measLe (db.profiletable.filter
    (fun r => decide (r.profileID ∈ plist) && decide (r.datefield.month = i)))

/-- `pd.merge(profiles, mp, left_on='ProfileID', right_on='ProfileId')`
followed by dropping `ProfileId`: an inner join of measurement rows
with metadata rows. -/
def mergeMeta : List MeasRow → List MetaOut → List JoinedRow
  | [], _ => []
  | p :: ps, mp =>
    (mp.filter (fun m => decide (m.profileId = p.profileID))).map
      (fun m => ⟨p.profileID, p.datefield, p.unitsread, p.valid, m.active, m.recorderID, m.uom⟩)
    ++ mergeMeta ps mp

/-- `getProfiles`: the batch assembler.  `fails` is the set of months
whose fetch raises (network failure etc.); the `try/except: pass` keeps
the previous loop state on failure.  The loop variable runs over
`range(1, 12)`, i.e. months 1..11, and each successful iteration
rebinds `df` to that month's joined rows.  The result is `none` when
`getMetaProfiles` failed (unpacking `None` raises) or when no iteration
ever assigned `df` (`NameError` on `return df`). -/
def getProfiles (db : DB) (fails : List Nat) (year : Int)
    (_month : Option Nat) (_units : Option String) : Option (List JoinedRow) :=
  match getMetaProfiles db year none with
  | .error _ => none
  | .ok (mp, plist) =>
    (List.range' 1 11).foldl
      (fun acc i =>
        if i ∈ fails then acc else some (mergeMeta (monthQuery db plist i) mp))
      none

/-! ## Anonymization Pass (`anonAns`) -/

/-- A row of an anonymisation rule CSV (`blobQs.csv` / `charQs.csv`). -/
structure Rule where
  questionaireID : Int
  columnNo : Int
  anonymise : Int
deriving DecidableEq

/-- A row of the `Answers` table (the columns the merge uses). -/
structure AnswersRow where
  answerID : Int
  questionaireID : Int
deriving DecidableEq

/-- A row of an answer table (`Answers_blob` / `Answers_char`): the
`AnswerID` key plus the per-question cells, keyed by column name. -/
structure AnsRow where
  answerID : Int
  cells : List (String × String)
deriving DecidableEq

def getCell (r : AnsRow) (c : String) : Option String :=
  (r.cells.find? (fun p => decide (p.1 = c))).map (fun p => p.2)

/-- Write `v` into column `c` of a cell list, replacing the first
occurrence or appending (pandas `set_value` enlarges on a missing
column). -/
def updateCells : List (String × String) → String → String → List (String × String)
  | [], c, v => [(c, v)]
  | p :: ps, c, v => if p.1 = c then (c, v) :: ps else p :: updateCells ps c v

def setCell (r : AnsRow) (c v : String) : AnsRow :=
  ⟨r.answerID, updateCells r.cells c v⟩

/-- `a.set_value(a[a.AnswerID == rows.AnswerID].index[0], str(rows.ColumnNo), 'a')`:
write into the first row with the given `AnswerID`; `none` models the
`IndexError` when no row matches. -/
def setValueFirst : List AnsRow → Int → String → String → Option (List AnsRow)
  | [], _, _, _ => none
  | r :: rs, aid, c, v =>
    if r.answerID = aid then some (setCell r c v :: rs)
    else (setValueFirst rs aid c v).map (fun t => r :: t)

/-- The merged `qanon` frame: for every `Answers` row, one `(AnswerID,
ColumnNo)` pair per matching (already `anonymise == 1`-filtered) rule. -/
def qanonPairs : List AnswersRow → List Rule → List (Int × Int)
  | [], _ => []
  | ar :: rest, qs =>
    (qs.filter (fun q => decide (q.questionaireID = ar.questionaireID))).map
      (fun q => (ar.answerID, q.columnNo))
    ++ qanonPairs rest qs

/-- Apply the `set_value` loop over the `qanon` rows in order. -/
def applyAll : List AnsRow → List (Int × Int) → Option (List AnsRow)
  | t, [] => some t
  | t, (aid, col) :: rest =>
    match setValueFirst t aid (toString col) "a" with
    | none => none
    | some t' => applyAll t' rest

/-- Anonymise one answer table against its rule CSV. -/
def anonOne (a : List AnsRow) (answers : List AnswersRow) (csv : List Rule) :
    Option (List AnsRow) :=
  applyAll a (qanonPairs answers (csv.filter (fun q => decide (q.anonymise = 1))))

/-- `anonAns`: anonymise `Answers_blob` and `Answers_char` against
their CSVs and save each result under `k.lower() + '_anon'`.  The
returned list models the `(name, table)` pairs handed to `saveTables`;
the source tables are inputs and are returned unchanged by no branch. -/
def anonAns (blob charT : List AnsRow) (blobQs charQs : List Rule)
    (answers : List AnswersRow) : Option (List (String × List AnsRow)) :=
  match anonOne blob answers blobQs with
  | none => none
  | some t1 =>
    match anonOne charT answers charQs with
    | none => none
    | some t2 =>
      some [(lowerStr "Answers_blob" ++ "_anon", t1), (lowerStr "Answers_char" ++ "_anon", t2)]

/-! ## Concrete database snapshots used to instantiate the theorems -/

/-- A minimal well-formed 4-level group tree: domestic → NRS LR → 2010
→ one location. -/
def tGroups : List GroupRow :=
  [⟨1, none, "Dom", 0⟩, ⟨2, some 1, "NRS LR", 0⟩, ⟨3, some 2, "2010", 0⟩, ⟨4, some 3, "LocA", 0⟩]

def r01 : MeasRow := ⟨"10", ⟨2010, 1, 15⟩, 7, "Y"⟩
def r11 : MeasRow := ⟨"10", ⟨2010, 11, 20⟩, 8, "Y"⟩
def r12 : MeasRow := ⟨"10", ⟨2010, 12, 25⟩, 9, "N"⟩

/-- A consistent snapshot: one profile (id 10) linked to the 2010
location group, with measurement rows in January, November and
December 2010. -/
def cdbP : DB :=
  ⟨[⟨10, 20, 4⟩], tGroups, [⟨true, "10", "R1", 7⟩], [⟨7, "kW avg"⟩], [r01, r11, r12]⟩

def j01 : JoinedRow := ⟨"10", ⟨2010, 1, 15⟩, 7, "Y", true, "R1", "kW avg"⟩
def j11 : JoinedRow := ⟨"10", ⟨2010, 11, 20⟩, 8, "Y", true, "R1", "kW avg"⟩
def j12 : JoinedRow := ⟨"10", ⟨2010, 12, 25⟩, 9, "N", true, "R1", "kW avg"⟩

/-- A link table carrying the same non-zero `ProfileID` on two distinct
valid rows. -/
def cdbL : DB :=
  ⟨[⟨5, 1, 4⟩, ⟨5, 2, 4⟩, ⟨0, 3, 4⟩], [], [], [], []⟩

/-- The flattened row `getGroups` produces from `tGroups`. -/
def crowP : FlatGroup :=
  ⟨0, some 1, some 2, some 3, 4, some "Dom", some "NRS LR", some "2010", "LocA"⟩

/-! ## Library lemmas about the list helpers -/

theorem mem_uniqAux (a : Int) :
    ∀ (l seen : List Int), a ∈ uniqAux l seen ↔ a ∈ l ∧ a ∉ seen
  | [], seen => by simp [uniqAux]
  | x :: xs, seen => by
    by_cases hx : x ∈ seen
    · rw [uniqAux, if_pos hx, mem_uniqAux a xs seen]
      constructor
      · exact fun ⟨h1, h2⟩ => ⟨List.mem_cons_of_mem x h1, h2⟩
      · rintro ⟨h1, h2⟩
        rcases List.mem_cons.mp h1 with h | h
        · exact absurd (h ▸ hx) h2
        · exact ⟨h, h2⟩
    · rw [uniqAux, if_neg hx]
      constructor
      · intro h
        rcases List.mem_cons.mp h with h | h
        · exact ⟨h ▸ List.mem_cons_self x xs, h ▸ hx⟩
        · rcases (mem_uniqAux a xs (x :: seen)).mp h with ⟨h1, h2⟩
          exact ⟨List.mem_cons_of_mem x h1,
            fun hs => h2 (List.mem_cons_of_mem x hs)⟩
      · rintro ⟨h1, h2⟩
        by_cases hax : a = x
        · exact hax ▸ List.mem_cons_self x _
        · rcases List.mem_cons.mp h1 with h | h
          · exact absurd h hax
          · exact List.mem_cons_of_mem x ((mem_uniqAux a xs (x :: seen)).mpr
              ⟨h, fun hs => (List.mem_cons.mp hs).elim hax h2⟩)

theorem mem_uniq (a : Int) (l : List Int) : a ∈ uniq l ↔ a ∈ l := by
  rw [uniq, mem_uniqAux]
  simp

theorem nodup_uniqAux : ∀ (l seen : List Int), (uniqAux l seen).Nodup
  | [], _ => List.nodup_nil
  | x :: xs, seen => by
    by_cases hx : x ∈ seen
    · rw [uniqAux, if_pos hx]
      exact nodup_uniqAux xs seen
    · rw [uniqAux, if_neg hx]
      refine List.nodup_cons.mpr ⟨?_, nodup_uniqAux xs (x :: seen)⟩
      intro hmem
      exact ((mem_uniqAux x xs (x :: seen)).mp hmem).2 (List.mem_cons_self x seen)

theorem nodup_uniq (l : List Int) : (uniq l).Nodup := nodup_uniqAux l []

theorem insertBy_perm {α : Type} (le : α → α → Bool) (x : α) :
    ∀ l : List α, (insertBy le x l).Perm (x :: l)
  | [] => List.Perm.refl _
  | y :: ys => by
    rw [insertBy]
    by_cases h : le x y
    · rw [if_pos h]
    · rw [if_neg h]
      exact ((insertBy_perm le x ys).cons y).trans (List.Perm.swap x y ys)

theorem sortBy_perm {α : Type} (le : α → α → Bool) :
    ∀ l : List α, (sortBy le l).Perm l
  | [] => List.Perm.refl _
  | x :: xs =>
    (insertBy_perm le x (sortBy le xs)).trans ((sortBy_perm le xs).cons x)

theorem insertBy_intLe_pairwise (x : Int) :
    ∀ l : List Int, l.Pairwise (fun a b => a ≤ b) →
      (insertBy intLe x l).Pairwise (fun a b => a ≤ b)
  | [], _ => List.pairwise_singleton _ x
  | y :: ys, h => by
    rcases List.pairwise_cons.mp h with ⟨hy, hys⟩
    rw [insertBy]
    by_cases hxy : intLe x y
    · rw [if_pos hxy]
      have hx : x ≤ y := of_decide_eq_true hxy
      refine List.pairwise_cons.mpr ⟨?_, h⟩
      intro z hz
      rcases List.mem_cons.mp hz with rfl | hz
      · exact hx
      · exact le_trans hx (hy z hz)
    · rw [if_neg hxy]
      have hyx : y ≤ x := le_of_not_le (fun hc => hxy (decide_eq_true hc))
      refine List.pairwise_cons.mpr ⟨?_, insertBy_intLe_pairwise x ys hys⟩
      intro z hz
      rcases (insertBy_perm intLe x ys).mem_iff.mp hz with hz'
      rcases List.mem_cons.mp hz' with rfl | hz''
      · exact hyx
      · exact hy z hz''

theorem sortInt_pairwise : ∀ l : List Int, (sortInt l).Pairwise (fun a b => a ≤ b)
  | [] => List.Pairwise.nil
  | x :: xs => insertBy_intLe_pairwise x (sortBy intLe xs) (sortInt_pairwise xs)

/-- A strictly sorted integer list is determined by its members. -/
theorem sorted_lt_eq_of_mem_iff :
    ∀ (l₁ l₂ : List Int), l₁.Pairwise (fun a b => a < b) → l₂.Pairwise (fun a b => a < b) →
      (∀ x, x ∈ l₁ ↔ x ∈ l₂) → l₁ = l₂
  | [], [], _, _, _ => rfl
  | [], b :: l₂, _, _, hmem => absurd ((hmem b).mpr (List.mem_cons_self b l₂)) (List.not_mem_nil b)
  | a :: l₁, [], _, _, hmem => absurd ((hmem a).mp (List.mem_cons_self a l₁)) (List.not_mem_nil a)
  | a :: l₁, b :: l₂, h₁, h₂, hmem => by
    rcases List.pairwise_cons.mp h₁ with ⟨ha, h₁'⟩
    rcases List.pairwise_cons.mp h₂ with ⟨hb, h₂'⟩
    have hab : a = b := by
      rcases List.mem_cons.mp ((hmem a).mp (List.mem_cons_self a l₁)) with h | h
      · exact h
      · rcases List.mem_cons.mp ((hmem b).mpr (List.mem_cons_self b l₂)) with h' | h'
        · exact h'.symm
        · exact absurd (lt_trans (hb a h) (ha b h')) (lt_irrefl b)
    subst hab
    have hmem' : ∀ x, x ∈ l₁ ↔ x ∈ l₂ := by
      intro x
      constructor
      · intro hx
        rcases List.mem_cons.mp ((hmem x).mp (List.mem_cons_of_mem a hx)) with h | h
        · exact absurd (h ▸ ha x hx) (lt_irrefl x)
        · exact h
      · intro hx
        rcases List.mem_cons.mp ((hmem x).mpr (List.mem_cons_of_mem a hx)) with h | h
        · exact absurd (h ▸ hb x hx) (lt_irrefl x)
        · exact h
    rw [sorted_lt_eq_of_mem_iff l₁ l₂ h₁' h₂' hmem']

/-- Filtering on a key that occurs exactly once (the mapped keys are
`Nodup` and the key is present) yields a single row. -/
theorem filter_key_length_one {β : Type} (f : β → Int) :
    ∀ m : List β, (m.map f).Nodup → ∀ k, k ∈ m.map f →
      (m.filter (fun b => decide (f b = k))).length = 1
  | [], _, k, hk => absurd hk (List.not_mem_nil k)
  | b :: m, hn, k, hk => by
    rw [List.map_cons, List.nodup_cons] at hn
    rw [List.filter_cons]
    by_cases hb : f b = k
    · rw [if_pos (decide_eq_true hb)]
      have hnil : m.filter (fun b => decide (f b = k)) = [] := by
        refine List.filter_eq_nil_iff.mpr ?_
        intro x hx hpx
        exact hn.1 (hb ▸ of_decide_eq_true hpx ▸ List.mem_map_of_mem f hx)
      rw [hnil]
      rfl
    · have hdec : decide (f b = k) = false := decide_eq_false hb
      rw [hdec]
      simp only [Bool.false_eq_true, if_false]
      have hk' : k ∈ m.map f := by
        rcases List.mem_cons.mp hk with h | h
        · exact absurd h.symm hb
        · exact h
      exact filter_key_length_one f m hn.2 k hk'

/-- When every left row's key matches exactly one right row, a left
join keeps the left rows exactly and fills every right side. -/
theorem leftJoin_unique {α β : Type} (r : List β) (key : α → Option Int) (rkey : β → Int) :
    ∀ l : List α,
      (∀ a ∈ l, ∃ k, key a = some k ∧ (r.filter (fun b => decide (rkey b = k))).length = 1) →
      (leftJoin l r key rkey).map Prod.fst = l ∧
        ∀ p ∈ leftJoin l r key rkey, ∃ b, p.2 = some b ∧ b ∈ r ∧ some (rkey b) = key p.1
  | [], _ => ⟨rfl, fun p hp => absurd hp (List.not_mem_nil p)⟩
  | a :: l, h => by
    rcases h a (List.mem_cons_self a l) with ⟨k, hk, hlen⟩
    rcases List.length_eq_one.mp hlen with ⟨b, hb⟩
    have hbr : b ∈ r ∧ rkey b = k := by
      have : b ∈ r.filter (fun b => decide (rkey b = k)) := hb ▸ List.mem_cons_self b []
      rcases List.mem_filter.mp this with ⟨h1, h2⟩
      exact ⟨h1, of_decide_eq_true h2⟩
    have ih := leftJoin_unique r key rkey l (fun a' ha' => h a' (List.mem_cons_of_mem a ha'))
    have hstep : leftJoin (a :: l) r key rkey = (a, some b) :: leftJoin l r key rkey := by
      simp only [leftJoin, hk, hb, List.map_cons, List.map_nil, List.singleton_append]
    constructor
    · rw [hstep, List.map_cons, ih.1]
    · intro p hp
      rw [hstep] at hp
      rcases List.mem_cons.mp hp with rfl | hp'
      · exact ⟨b, rfl, hbr.1, by rw [hbr.2, hk]⟩
      · exact ih.2 p hp'

/-- `find?` on a key hits the unique row carrying that key. -/
theorem find_key_unique {β : Type} (f : β → Int) :
    ∀ m : List β, (m.map f).Nodup → ∀ b ∈ m, ∀ k, f b = k →
      m.find? (fun x => decide (f x = k)) = some b
  | [], _, b, hb, _, _ => absurd hb (List.not_mem_nil b)
  | x :: m, hn, b, hb, k, hfb => by
    rw [List.map_cons, List.nodup_cons] at hn
    by_cases hx : f x = k
    · have hbx : b = x := by
        rcases List.mem_cons.mp hb with rfl | hb'
        · rfl
        · refine absurd ?_ hn.1
          rw [hx, ← hfb]
          exact List.mem_map_of_mem f hb'
      rw [List.find?_cons, decide_eq_true hx, hbx]
    · have hb' : b ∈ m := by
        rcases List.mem_cons.mp hb with rfl | hb'
        · exact absurd hfb hx
        · exact hb'
      rw [List.find?_cons, decide_eq_false hx]
      exact find_key_unique f m hn.2 b hb' k hfb

/-- Positional lookup through `idxOfInt` on parallel `map`s of one
list: the description at a key's index belongs to a row carrying that
key. -/
theorem getD_idxOf_map {β : Type} (fid : β → Int) (fdesc : β → String) :
    ∀ (F : List β) (k : Int), k ∈ F.map fid →
      ∃ row, row ∈ F ∧ fid row = k ∧
        (F.map fdesc).getD (idxOfInt k (F.map fid)) "" = fdesc row
  | [], k, hk => absurd hk (List.not_mem_nil k)
  | f :: F, k, hk => by
    rw [List.map_cons, List.map_cons]
    by_cases hf : fid f = k
    · exact ⟨f, List.mem_cons_self f F, hf, by rw [idxOfInt, if_pos hf]; rfl⟩
    · have hk' : k ∈ F.map fid := by
        rcases List.mem_cons.mp hk with h | h
        · exact absurd h.symm hf
        · exact h
      rcases getD_idxOf_map fid fdesc F k hk' with ⟨row, hrow, hfid, hgetD⟩
      exact ⟨row, List.mem_cons_of_mem f hrow, hfid, by rw [idxOfInt, if_neg hf]; exact hgetD⟩

/-- `filter` after `map` is `map` after `filter` on the composed
predicate. -/
theorem filter_map_comm {α β : Type} (f : α → β) (p : β → Bool) :
    ∀ l : List α, (l.map f).filter p = (l.filter (fun a => p (f a))).map f
  | [] => rfl
  | a :: l => by
    rw [List.map_cons, List.filter_cons, List.filter_cons]
    by_cases h : p (f a)
    · rw [if_pos h, if_pos h, List.map_cons, filter_map_comm f p l]
    · rw [if_neg h, if_neg h, filter_map_comm f p l]

/-- `filter` only depends on the predicate's values on the list. -/
theorem filter_congr_mem {α : Type} (p q : α → Bool) :
    ∀ l : List α, (∀ a ∈ l, p a = q a) → l.filter p = l.filter q
  | [], _ => rfl
  | a :: l, h => by
    rw [List.filter_cons, List.filter_cons, h a (List.mem_cons_self a l),
      filter_congr_mem p q l (fun a' ha' => h a' (List.mem_cons_of_mem a ha'))]

/-! ## Lemmas about the Group Hierarchy Builder -/

theorem ngroups_map_gid (db : DB) :
    (ngroups db).map (fun g => g.groupID) = db.groups.map (fun g => g.groupID) :=
  List.map_map (fun g : NGroup => g.groupID) normalizeGroup db.groups

theorem filtered_gid_nodup (db : DB) (p : NGroup → Bool)
    (hnodup : (db.groups.map (fun g => g.groupID)).Nodup) :
    (((ngroups db).filter p).map (fun g => g.groupID)).Nodup := by
  have hn : ((ngroups db).map (fun g => g.groupID)).Nodup := by
    rw [ngroups_map_gid db]
    exact hnodup
  exact hn.sublist ((List.filter_sublist (ngroups db)).map (fun g => g.groupID))

/-- Under unique `GroupID`s, the three left joins of `getGroups` each
find exactly one parent for every row. -/
theorem recon_joins (db : DB) (hnodup : (db.groups.map (fun g => g.groupID)).Nodup) :
    ((recon1 db).map Prod.fst = recon2 db ∧
      ∀ p ∈ recon1 db, ∃ d, p.2 = some d ∧ d ∈ glevel1 db ∧ some d.groupID = p.1.2.map (fun c => c.parentID)) ∧
    ((recon2 db).map Prod.fst = recon3 db ∧
      ∀ p ∈ recon2 db, ∃ c, p.2 = some c ∧ c ∈ glevel2 db ∧ some c.groupID = p.1.2.map (fun b => b.parentID)) ∧
    ((recon3 db).map Prod.fst = glevel4 db ∧
      ∀ p ∈ recon3 db, ∃ b, p.2 = some b ∧ b ∈ glevel3 db ∧ some b.groupID = some p.1.parentID) := by
  have hn1 := filtered_gid_nodup db (fun g => decide (g.parentID = 0)) hnodup
  have hn2 := filtered_gid_nodup db (fun g => decide (g.parentID ∈ l1ids db)) hnodup
  have hn3 := filtered_gid_nodup db (fun g => decide (g.parentID ∈ l2ids db)) hnodup
  have prem3 : ∀ a ∈ glevel4 db, ∃ k, (some a.parentID : Option Int) = some k ∧
      ((glevel3 db).filter (fun b => decide (b.groupID = k))).length = 1 := by
    intro a ha
    refine ⟨a.parentID, rfl, ?_⟩
    have ha' : a ∈ (ngroups db).filter (fun g => decide (g.parentID ∈ l3ids db)) := ha
    have hamem : a.parentID ∈ l3ids db := of_decide_eq_true (List.mem_filter.mp ha').2
    exact filter_key_length_one (fun g : NGroup => g.groupID) (glevel3 db) hn3 a.parentID hamem
  have h3 := leftJoin_unique (glevel3 db) (fun a : NGroup => some a.parentID)
    (fun b : NGroup => b.groupID) (glevel4 db) prem3
  have prem2 : ∀ p ∈ recon3 db, ∃ k, p.2.map (fun b => b.parentID) = some k ∧
      ((glevel2 db).filter (fun b => decide (b.groupID = k))).length = 1 := by
    intro p hp
    rcases h3.2 p hp with ⟨b, hbEq, hbr, _⟩
    refine ⟨b.parentID, by rw [hbEq]; rfl, ?_⟩
    have hbr' : b ∈ (ngroups db).filter (fun g => decide (g.parentID ∈ l2ids db)) := hbr
    have hbmem : b.parentID ∈ l2ids db := of_decide_eq_true (List.mem_filter.mp hbr').2
    exact filter_key_length_one (fun g : NGroup => g.groupID) (glevel2 db) hn2 b.parentID hbmem
  have h2 := leftJoin_unique (glevel2 db)
    (fun p : NGroup × Option NGroup => p.2.map (fun b => b.parentID))
    (fun b : NGroup => b.groupID) (recon3 db) prem2
  have prem1 : ∀ p ∈ recon2 db, ∃ k, p.2.map (fun c => c.parentID) = some k ∧
      ((glevel1 db).filter (fun b => decide (b.groupID = k))).length = 1 := by
    intro p hp
    rcases h2.2 p hp with ⟨c, hcEq, hcr, _⟩
    refine ⟨c.parentID, by rw [hcEq]; rfl, ?_⟩
    have hcr' : c ∈ (ngroups db).filter (fun g => decide (g.parentID ∈ l1ids db)) := hcr
    have hcmem : c.parentID ∈ l1ids db := of_decide_eq_true (List.mem_filter.mp hcr').2
    exact filter_key_length_one (fun g : NGroup => g.groupID) (glevel1 db) hn1 c.parentID hcmem
  have h1 := leftJoin_unique (glevel1 db)
    (fun p : (NGroup × Option NGroup) × Option NGroup => p.2.map (fun c => c.parentID))
    (fun b : NGroup => b.groupID) (recon2 db) prem1
  exact ⟨⟨h1.1, h1.2⟩, ⟨h2.1, h2.2⟩, ⟨h3.1, h3.2⟩⟩

theorem prettyg_gid (db : DB) (hnodup : (db.groups.map (fun g => g.groupID)).Nodup) :
    (prettyg db).map (fun r => r.groupID) = (glevel4 db).map (fun g => g.groupID) := by
  rcases recon_joins db hnodup with ⟨⟨h1map, _⟩, ⟨h2map, _⟩, ⟨h3map, _⟩⟩
  have e1 : (prettyg db).map (fun r => r.groupID) =
      (recon1 db).map (fun p => p.1.1.1.groupID) :=
    List.map_map (fun r : FlatGroup => r.groupID) _ (recon1 db)
  have e2 : (recon1 db).map (fun p => p.1.1.1.groupID) =
      ((recon1 db).map Prod.fst).map (fun q => q.1.1.groupID) :=
    (List.map_map (fun q : (NGroup × Option NGroup) × Option NGroup => q.1.1.groupID)
      Prod.fst (recon1 db)).symm
  have e3 : (recon2 db).map (fun q => q.1.1.groupID) =
      ((recon2 db).map Prod.fst).map (fun q => q.1.groupID) :=
    (List.map_map (fun q : NGroup × Option NGroup => q.1.groupID) Prod.fst (recon2 db)).symm
  have e4 : (recon3 db).map (fun q => q.1.groupID) =
      ((recon3 db).map Prod.fst).map (fun g => g.groupID) :=
    (List.map_map (fun g : NGroup => g.groupID) Prod.fst (recon3 db)).symm
  rw [e1, e2, h1map, e3, h2map, e4, h3map]

/-- Claim C3: for every Group table forming a valid strict 4-level tree
(formalised by its key invariant: the `GroupID`s are pairwise
distinct), the flattened table of `getGroups` with no year has exactly
one row per level-4 (location) group — its `GroupID` column is a
permutation of the level-4 `GroupID`s — and in every row the three
ancestor name columns `Dom_NonDom`, `Survey` and `Year` are non-null. -/
theorem getGroups_one_row_per_location (db : DB)
    (hnodup : (db.groups.map (fun g => g.groupID)).Nodup) :
    ((getGroups db none).map (fun r => r.groupID)).Perm
      ((glevel4 db).map (fun g => g.groupID)) ∧
    ∀ r ∈ getGroups db none, r.dom_NonDom.isSome ∧ r.survey.isSome ∧ r.year.isSome := by
  rcases recon_joins db hnodup with ⟨⟨h1map, h1prop⟩, ⟨h2map, h2prop⟩, ⟨_, h3prop⟩⟩
  constructor
  · have hperm : (getGroups db none).Perm (prettyg db) := sortBy_perm flatLe (prettyg db)
    have := hperm.map (fun r => r.groupID)
    rw [prettyg_gid db hnodup] at this
    exact this
  · intro r hr
    have hr' : r ∈ prettyg db :=
      (sortBy_perm flatLe (prettyg db)).mem_iff.mp hr
    rcases List.mem_map.mp hr' with ⟨p, hp, hrp⟩
    rcases h1prop p hp with ⟨d, hd, _, _⟩
    have hp2 : p.1 ∈ recon2 db := by
      rw [← h1map]
      exact List.mem_map_of_mem Prod.fst hp
    rcases h2prop p.1 hp2 with ⟨c, hc, _, _⟩
    have hp3 : p.1.1 ∈ recon3 db := by
      rw [← h2map]
      exact List.mem_map_of_mem Prod.fst hp2
    rcases h3prop p.1.1 hp3 with ⟨b, hb, _, _⟩
    subst hrp
    refine ⟨?_, ?_, ?_⟩
    · show (p.2.map (fun d => d.groupName)).isSome
      rw [hd]
      rfl
    · show (p.1.2.map (fun c => c.groupName)).isSome
      rw [hc]
      rfl
    · show (p.1.1.2.map (fun b => b.groupName)).isSome
      rw [hb]
      rfl

/-- Claim C3 witness: the hypotheses hold and the conclusion follows on
the concrete 4-level tree `tGroups`. -/
theorem getGroups_one_row_per_location_witness :
    ((getGroups cdbP none).map (fun r => r.groupID)).Perm
      ((glevel4 cdbP).map (fun g => g.groupID)) :=
  (getGroups_one_row_per_location cdbP (by decide)).1

/-- Claim C4: filtering by a year is exactly the equality filter of the
flattened table on `Year == str(year)` — an exact string comparison
performed after the reconstruction, and every returned row's `Year`
field is the year's string representation. -/
theorem getGroups_year_exact_filter (db : DB) (y : Int) :
    getGroups db (some y) =
      (getGroups db none).filter (fun r => decide (r.year = some (toString y))) ∧
    ∀ r ∈ getGroups db (some y), r.year = some (toString y) := by
  refine ⟨rfl, ?_⟩
  intro r hr
  have hr' : r ∈ (sortBy flatLe (prettyg db)).filter
      (fun r => decide (r.year = some (toString y))) := hr
  exact of_decide_eq_true (List.mem_filter.mp hr').2

/-- Claim C4 witness: on the concrete snapshot, the single 2010 row
passes the exact string filter and carries `Year = "2010"`. -/
theorem getGroups_year_exact_filter_witness :
    crowP.year = some (toString (2010 : Int)) :=
  (getGroups_year_exact_filter cdbP 2010).2 crowP (by decide)

/-! ## Identifier Resolver theorems -/

/-- Claim C8, counterexample: with no year argument `getProfileID`
returns the filtered link rows themselves, not a set of distinct
profile identifiers — on a link table with two valid rows for profile 5
the returned identifiers are `[5, 5]`, which is not duplicate-free. -/
theorem getProfileID_noyear_not_distinct :
    (getProfileID_all cdbL).map (fun r => r.profileID) = [5, 5] ∧
    ¬ ((getProfileID_all cdbL).map (fun r => r.profileID)).Nodup := by
  decide

/-- Claim C8, amended: `getProfileID` with a year returns the distinct
non-zero profile identifiers of valid link rows (`GroupID ≠ 0`,
`ProfileID ≠ 0`) restricted to the year's groups, and completely so;
with no year it returns the valid link rows themselves (without
deduplicating identifiers), and `getAnswerID` likewise returns the
valid link rows with `GroupID ≠ 0` and `AnswerID ≠ 0`.  In every case
no returned identifier comes from a row with `GroupID = 0` or with the
relevant identifier `0`. -/
theorem getProfileID_resolver (db : DB) (y : Int) :
    (getProfileID_year db y).Nodup ∧
    (∀ p ∈ getProfileID_year db y, p ≠ 0 ∧ ∃ r ∈ db.linktable,
      r.groupID ≠ 0 ∧ r.profileID = p ∧
      r.groupID ∈ (getGroups db (some y)).map (fun g => g.groupID)) ∧
    (∀ r ∈ db.linktable, r.groupID ≠ 0 → r.profileID ≠ 0 →
      r.groupID ∈ (getGroups db (some y)).map (fun g => g.groupID) →
      r.profileID ∈ getProfileID_year db y) ∧
    (∀ r ∈ getProfileID_all db, r.groupID ≠ 0 ∧ r.profileID ≠ 0) ∧
    (∀ r ∈ db.linktable, r.groupID ≠ 0 → r.profileID ≠ 0 → r ∈ getProfileID_all db) ∧
    (∀ r ∈ getAnswerID db, r.groupID ≠ 0 ∧ r.answerID ≠ 0) := by
  have hval : ∀ r ∈ getProfileID_all db, r.groupID ≠ 0 ∧ r.profileID ≠ 0 := by
    intro r hr
    have hr' : r ∈ db.linktable.filter
        (fun r => decide (r.groupID ≠ 0) && decide (r.profileID ≠ 0)) := hr
    rcases List.mem_filter.mp hr' with ⟨_, h2⟩
    rcases Bool.and_eq_true_iff.mp h2 with ⟨hg, hp⟩
    exact ⟨of_decide_eq_true hg, of_decide_eq_true hp⟩
  have hmemall : ∀ r ∈ db.linktable, r.groupID ≠ 0 → r.profileID ≠ 0 →
      r ∈ getProfileID_all db := by
    intro r hr hg hp
    exact List.mem_filter.mpr ⟨hr, Bool.and_eq_true_iff.mpr ⟨decide_eq_true hg, decide_eq_true hp⟩⟩
  refine ⟨nodup_uniq _, ?_, ?_, hval, hmemall, ?_⟩
  · intro p hp
    have hp' := (mem_uniq p _).mp hp
    rcases List.mem_map.mp hp' with ⟨r, hrf, hrp⟩
    rcases List.mem_filter.mp hrf with ⟨hrall, hgy⟩
    rcases hval r hrall with ⟨hg, hpid⟩
    have hrlink : r ∈ db.linktable := List.mem_of_mem_filter hrall
    exact ⟨hrp ▸ hpid, r, hrlink, hg, hrp, of_decide_eq_true hgy⟩
  · intro r hr hg hp hy
    have hmem : r ∈ (getProfileID_all db).filter
        (fun r => decide (r.groupID ∈ (getGroups db (some y)).map (fun g => g.groupID))) :=
      List.mem_filter.mpr ⟨hmemall r hr hg hp, decide_eq_true hy⟩
    exact (mem_uniq _ _).mpr (List.mem_map_of_mem (fun r => r.profileID) hmem)
  · intro r hr
    have hr' : r ∈ db.linktable.filter
        (fun r => decide (r.groupID ≠ 0) && decide (r.answerID ≠ 0)) := hr
    rcases List.mem_filter.mp hr' with ⟨_, h2⟩
    rcases Bool.and_eq_true_iff.mp h2 with ⟨hg, ha⟩
    exact ⟨of_decide_eq_true hg, of_decide_eq_true ha⟩

/-- Claim C8 witness: on the concrete snapshot the completeness clause
puts profile 10 in the 2010 identifier set. -/
theorem getProfileID_resolver_witness : (10 : Int) ∈ getProfileID_year cdbP 2010 :=
  (getProfileID_resolver cdbP 2010).2.2.1 ⟨10, 20, 4⟩ (by decide) (by decide) (by decide)
    (by decide)

/-- Claim C9: when a set of years covers every valid link row's group,
the no-year resolver's profile identifiers coincide with the union of
the per-year resolvers' results. -/
theorem getProfileID_union_over_years (db : DB) (years : List Int)
    (hcover : ∀ r ∈ getProfileID_all db, ∃ y ∈ years,
      r.groupID ∈ (getGroups db (some y)).map (fun g => g.groupID)) :
    ∀ p, p ∈ (getProfileID_all db).map (fun r => r.profileID) ↔
      ∃ y ∈ years, p ∈ getProfileID_year db y := by
  intro p
  constructor
  · intro hp
    rcases List.mem_map.mp hp with ⟨r, hr, hrp⟩
    rcases hcover r hr with ⟨y, hy, hgy⟩
    refine ⟨y, hy, (mem_uniq p _).mpr ?_⟩
    rcases hrp with rfl
    have hmem : r ∈ (getProfileID_all db).filter
        (fun r => decide (r.groupID ∈ (getGroups db (some y)).map (fun g => g.groupID))) :=
      List.mem_filter.mpr ⟨hr, decide_eq_true hgy⟩
    exact List.mem_map_of_mem (fun r => r.profileID) hmem
  · rintro ⟨y, _, hp⟩
    rcases List.mem_map.mp ((mem_uniq p _).mp hp) with ⟨r, hrf, hrp⟩
    exact hrp ▸ List.mem_map_of_mem (fun r => r.profileID) (List.mem_of_mem_filter hrf)

/-- Claim C9 witness: with the single year 2010 covering the snapshot's
groups, membership of profile 10 agrees on both sides. -/
theorem getProfileID_union_over_years_witness :
    (10 : Int) ∈ (getProfileID_all cdbP).map (fun r => r.profileID) ↔
      ∃ y ∈ [(2010 : Int)], (10 : Int) ∈ getProfileID_year cdbP y :=
  getProfileID_union_over_years cdbP [2010] (by decide) 10

/-! ## Batch Assembler theorems -/

/-- Claim C1, evaluated at the failing input: on a snapshot whose
profile has measurement rows in January, November and December 2010,
`getProfiles` (no fetch failure) returns only November's joined row.
The loop `for i in range(1, 12)` never queries month 12, and each
iteration rebinds `df` instead of concatenating, so every month before
the last is dropped: the January and December joined rows are absent
from the result, contradicting the claimed concatenation of all
calendar months. -/
theorem getProfiles_keeps_only_last_month :
    getProfiles cdbP [] 2010 none none = some [j11] ∧
    r01 ∈ cdbP.profiletable ∧ r12 ∈ cdbP.profiletable ∧
    j01 ∉ [j11] ∧ j12 ∉ [j11] := by
  decide

/-- Claim C2, evaluated at the failing input: when exactly one month's
fetch (month 11) fails, the call indeed does not abort, but the result
is the (empty) join of the last successfully fetched month (month 10)
rather than the rows of all other months: January's row is lost even
though its fetch succeeded. -/
theorem getProfiles_single_failure_loses_other_months :
    getProfiles cdbP [11] 2010 none none = some [] ∧
    r01 ∈ cdbP.profiletable ∧ j01 ∉ ([] : List JoinedRow) := by
  decide

/-- Claim C10: `getProfiles` never consults its `month` and `units`
arguments — the metadata is fetched with `units = None` and the month
parameter is unused — so two calls on the same database state agreeing
on the year return the same table. -/
theorem getProfiles_ignores_month_units (db : DB) (fails : List Nat) (year : Int)
    (m m' : Option Nat) (u u' : Option String) :
    getProfiles db fails year m u = getProfiles db fails year m' u' := rfl

/-! ## Metadata Filter theorems -/

/-- When the units lookup table is strictly sorted by `UnitsID` and
covers every code in use, the positional category relabelling of
`getMetaProfiles` has matching lengths and resolves each code to its
lookup description. -/
theorem metaResolution (db : DB) (year : Int)
    (hsorted : db.puom.Pairwise (fun a b => a.unitsID < b.unitsID))
    (hcover : ∀ p ∈ metaCandidates db year, p.uom ∈ db.puom.map (fun r => r.unitsID)) :
    (metaCats db year).length = (metaCategories db year).length ∧
    ∀ p ∈ metaCandidates db year,
      lookupDescription db.puom p.uom = some (resolveLabel db year p.uom) := by
  have hCle : (metaCategories db year).Pairwise (fun a b => a ≤ b) := by
    show (sortInt (uniq ((metaCandidates db year).map (fun p => p.uom)))).Pairwise
      (fun a b => a ≤ b)
    exact sortInt_pairwise _
  have hCnd : (metaCategories db year).Nodup := by
    show (sortBy intLe (uniq ((metaCandidates db year).map (fun p => p.uom)))).Nodup
    exact (sortBy_perm intLe _).symm.nodup (nodup_uniq _)
  have hCsorted : (metaCategories db year).Pairwise (fun a b => a < b) :=
    (hCle.and hCnd).imp (fun h => lt_of_le_of_ne h.1 h.2)
  have hFsorted : ((db.puom.filter
      (fun r => decide (r.unitsID ∈ metaCategories db year))).map
        (fun r => r.unitsID)).Pairwise (fun a b => a < b) :=
    List.pairwise_map.mpr (hsorted.sublist (List.filter_sublist db.puom))
  have hmemFC : ∀ x, x ∈ (db.puom.filter
      (fun r => decide (r.unitsID ∈ metaCategories db year))).map (fun r => r.unitsID) ↔
      x ∈ metaCategories db year := by
    intro x
    constructor
    · intro hx
      rcases List.mem_map.mp hx with ⟨row, hrow, hrid⟩
      rcases List.mem_filter.mp hrow with ⟨_, hdec⟩
      exact hrid ▸ of_decide_eq_true hdec
    · intro hx
      have hx' : x ∈ (metaCandidates db year).map (fun p => p.uom) :=
        (mem_uniq x _).mp ((sortBy_perm intLe _).mem_iff.mp hx)
      rcases List.mem_map.mp hx' with ⟨p, hp, hpx⟩
      rcases List.mem_map.mp (hcover p hp) with ⟨row, hrow, hrid⟩
      have hrowF : row ∈ db.puom.filter
          (fun r => decide (r.unitsID ∈ metaCategories db year)) :=
        List.mem_filter.mpr ⟨hrow, decide_eq_true (by rw [hrid, hpx]; exact hx)⟩
      refine List.mem_map.mpr ⟨row, hrowF, by rw [hrid, hpx]⟩
  have hFC : (db.puom.filter
      (fun r => decide (r.unitsID ∈ metaCategories db year))).map (fun r => r.unitsID) =
      metaCategories db year :=
    sorted_lt_eq_of_mem_iff _ _ hFsorted hCsorted hmemFC
  have hpuomNd : (db.puom.map (fun r => r.unitsID)).Nodup :=
    (List.pairwise_map.mpr hsorted).imp (fun h => ne_of_lt h)
  constructor
  · have h1 : (metaCats db year).length = (db.puom.filter
        (fun r => decide (r.unitsID ∈ metaCategories db year))).length :=
      List.length_map _ _
    have h2 : (metaCategories db year).length = (db.puom.filter
        (fun r => decide (r.unitsID ∈ metaCategories db year))).length := by
      conv_lhs => rw [← hFC]
      exact List.length_map _ _
    rw [h1, h2]
  · intro p hp
    have hx : p.uom ∈ metaCategories db year :=
      (sortBy_perm intLe _).mem_iff.mpr
        ((mem_uniq p.uom _).mpr (List.mem_map_of_mem (fun p => p.uom) hp))
    have hxF : p.uom ∈ (db.puom.filter
        (fun r => decide (r.unitsID ∈ metaCategories db year))).map (fun r => r.unitsID) := by
      rw [hFC]
      exact hx
    rcases getD_idxOf_map (fun r : PuomRow => r.unitsID) (fun r => r.description)
      (db.puom.filter (fun r => decide (r.unitsID ∈ metaCategories db year))) p.uom hxF
      with ⟨row, hrowF, hrowid, hgetD⟩
    have hfind : db.puom.find? (fun x => decide (x.unitsID = p.uom)) = some row :=
      find_key_unique (fun r : PuomRow => r.unitsID) db.puom hpuomNd row
        (List.mem_of_mem_filter hrowF) p.uom hrowid
    have hres : resolveLabel db year p.uom = row.description := by
      show (metaCats db year).getD (idxOfInt p.uom (metaCategories db year)) "" = row.description
      rw [← hFC]
      exact hgetD
    rw [lookupDescription, hfind, hres]
    rfl

/-- Claim C6: for a supported units argument, `getMetaProfiles` returns
exactly the year's profiles whose resolved unit-of-measurement label —
the lookup-table description of their code — is the expected label
(`"kW avg"` for kW, `"V avg"`, `"A avg"`, `"kVA avg"` likewise, and
`"Hz"` for Hz).  The lookup table is assumed strictly sorted by
`UnitsID` and covering the codes in use, which is what makes the code's
positional category relabelling coincide with the lookup. -/
theorem getMetaProfiles_unit_filter (db : DB) (year : Int) (u : String)
    (hu : u = "V" ∨ u = "A" ∨ u = "kVA" ∨ u = "kW" ∨ u = "Hz")
    (hsorted : db.puom.Pairwise (fun a b => a.unitsID < b.unitsID))
    (hcover : ∀ p ∈ metaCandidates db year, p.uom ∈ db.puom.map (fun r => r.unitsID)) :
    getMetaProfiles db year (some u) =
      Except.ok (metaRows db year,
        ((metaCandidates db year).filter
          (fun p => decide (lookupDescription db.puom p.uom = some (spec_unitLabel u)))).map
            (fun p => p.profileId)) := by
  rcases metaResolution db year hsorted hcover with ⟨hlen, hres⟩
  have hfilter : ∀ L : String,
      ((metaRows db year).filter (fun m => decide (m.uom = L))).map (fun m => m.profileId) =
      ((metaCandidates db year).filter
        (fun p => decide (lookupDescription db.puom p.uom = some L))).map
          (fun p => p.profileId) := by
    intro L
    have h1 : (metaRows db year).filter (fun m => decide (m.uom = L)) =
        ((metaCandidates db year).filter
          (fun p => decide (resolveLabel db year p.uom = L))).map
            (fun p => MetaOut.mk p.active p.profileId p.recorderID
              (resolveLabel db year p.uom)) :=
      filter_map_comm (fun p : ProfRow => MetaOut.mk p.active p.profileId p.recorderID
        (resolveLabel db year p.uom)) (fun m => decide (m.uom = L)) (metaCandidates db year)
    have h2 : ((metaCandidates db year).filter
        (fun p => decide (resolveLabel db year p.uom = L))) =
        ((metaCandidates db year).filter
          (fun p => decide (lookupDescription db.puom p.uom = some L))) := by
      refine filter_congr_mem _ _ (metaCandidates db year) ?_
      intro p hp
      refine decide_eq_decide.mpr ?_
      rw [hres p hp]
      exact Option.some_inj.symm
    rw [h1, List.map_map, h2]
    rfl
  have hstep : getMetaProfiles db year (some u) =
      if u = "V" ∨ u = "A" ∨ u = "kVA" ∨ u = "kW" then
        Except.ok (metaRows db year,
          ((metaRows db year).filter (fun m => decide (m.uom = stripStr u ++ " avg"))).map
            (fun m => m.profileId))
      else if u = "Hz" then
        Except.ok (metaRows db year,
          ((metaRows db year).filter (fun m => decide (m.uom = "Hz"))).map
            (fun m => m.profileId))
      else Except.error checkSpellingMsg := by
    rw [getMetaProfiles, if_pos hlen]
  rcases hu with rfl | rfl | rfl | rfl | rfl
  · rw [hstep, if_pos (Or.inl rfl),
      show stripStr "V" ++ " avg" = "V avg" from by decide,
      show spec_unitLabel "V" = "V avg" from by decide, hfilter "V avg"]
  · rw [hstep, if_pos (Or.inr (Or.inl rfl)),
      show stripStr "A" ++ " avg" = "A avg" from by decide,
      show spec_unitLabel "A" = "A avg" from by decide, hfilter "A avg"]
  · rw [hstep, if_pos (Or.inr (Or.inr (Or.inl rfl))),
      show stripStr "kVA" ++ " avg" = "kVA avg" from by decide,
      show spec_unitLabel "kVA" = "kVA avg" from by decide, hfilter "kVA avg"]
  · rw [hstep, if_pos (Or.inr (Or.inr (Or.inr rfl))),
      show stripStr "kW" ++ " avg" = "kW avg" from by decide,
      show spec_unitLabel "kW" = "kW avg" from by decide, hfilter "kW avg"]
  · rw [hstep, if_neg (by decide), if_pos rfl,
      show spec_unitLabel "Hz" = "Hz" from by decide, hfilter "Hz"]

/-- Claim C6 witness: on the concrete snapshot the hypotheses hold and
the kW filter returns exactly the profiles resolving to "kW avg". -/
theorem getMetaProfiles_unit_filter_witness :
    getMetaProfiles cdbP 2010 (some "kW") =
      Except.ok (metaRows cdbP 2010,
        ((metaCandidates cdbP 2010).filter
          (fun p => decide (lookupDescription cdbP.puom p.uom = some (spec_unitLabel "kW")))).map
            (fun p => p.profileId)) :=
  getMetaProfiles_unit_filter cdbP 2010 "kW" (Or.inr (Or.inr (Or.inr (Or.inl rfl))))
    (by decide) (by decide)

/-- Claim C7: a units argument outside the supported enumeration makes
`getMetaProfiles` produce the user-facing spelling error and return no
data (no metadata table and no profile list), provided the category
relabelling itself did not already fail. -/
theorem getMetaProfiles_unsupported_units (db : DB) (year : Int) (u : String)
    (hlen : (metaCats db year).length = (metaCategories db year).length)
    (hu : ¬(u = "V" ∨ u = "A" ∨ u = "kVA" ∨ u = "kW")) (hz : ¬u = "Hz") :
    getMetaProfiles db year (some u) = Except.error checkSpellingMsg := by
  rw [getMetaProfiles, if_pos hlen]
  rw [if_neg hu, if_neg hz]

/-- Claim C7 witness: the misspelled unit "watt" yields the spelling
error on the concrete snapshot. -/
theorem getMetaProfiles_unsupported_units_witness :
    getMetaProfiles cdbP 2010 (some "watt") = Except.error checkSpellingMsg :=
  getMetaProfiles_unsupported_units cdbP 2010 "watt" (by decide) (by decide) (by decide)

/-! ## Anonymization Pass theorems -/

theorem find_cell_cons_pos (q : String × String) (l : List (String × String)) (c : String)
    (h : q.1 = c) : (q :: l).find? (fun p => decide (p.1 = c)) = some q :=
  List.find?_cons_of_pos l (decide_eq_true h)

theorem find_cell_cons_neg (q : String × String) (l : List (String × String)) (c : String)
    (h : ¬q.1 = c) :
    (q :: l).find? (fun p => decide (p.1 = c)) = l.find? (fun p => decide (p.1 = c)) :=
  List.find?_cons_of_neg l (by simpa using h)

theorem find_updateCells_same :
    ∀ (cs : List (String × String)) (c v : String),
      ((updateCells cs c v).find? (fun p => decide (p.1 = c))).map (fun p => p.2) = some v
  | [], c, v => by
    rw [updateCells, find_cell_cons_pos (c, v) [] c rfl]
    rfl
  | p :: ps, c, v => by
    rw [updateCells]
    by_cases h : p.1 = c
    · rw [if_pos h, find_cell_cons_pos (c, v) ps c rfl]
      rfl
    · rw [if_neg h, find_cell_cons_neg p (updateCells ps c v) c h]
      exact find_updateCells_same ps c v

theorem find_updateCells_other :
    ∀ (cs : List (String × String)) (c v c' : String), c' ≠ c →
      (updateCells cs c v).find? (fun p => decide (p.1 = c')) =
        cs.find? (fun p => decide (p.1 = c'))
  | [], c, v, c', hne => by
    rw [updateCells, find_cell_cons_neg (c, v) [] c' (fun h => hne h.symm)]
  | p :: ps, c, v, c', hne => by
    rw [updateCells]
    by_cases h : p.1 = c
    · rw [if_pos h, find_cell_cons_neg (c, v) ps c' (fun h' => hne h'.symm),
        find_cell_cons_neg p ps c' (fun h' => hne (h'.symm.trans h))]
    · rw [if_neg h]
      by_cases h' : p.1 = c'
      · rw [find_cell_cons_pos p (updateCells ps c v) c' h',
          find_cell_cons_pos p ps c' h']
      · rw [find_cell_cons_neg p (updateCells ps c v) c' h',
          find_cell_cons_neg p ps c' h']
        exact find_updateCells_other ps c v c' hne

theorem getCell_setCell_same (r : AnsRow) (c v : String) :
    getCell (setCell r c v) c = some v :=
  find_updateCells_same r.cells c v

theorem getCell_setCell_other (r : AnsRow) (c v c' : String) (hne : c' ≠ c) :
    getCell (setCell r c v) c' = getCell r c' := by
  show ((updateCells r.cells c v).find? (fun p => decide (p.1 = c'))).map (fun p => p.2) = _
  rw [find_updateCells_other r.cells c v c' hne]
  rfl

theorem setValueFirst_ids :
    ∀ (t : List AnsRow) (aid : Int) (c v : String) (t' : List AnsRow),
      setValueFirst t aid c v = some t' →
      t'.map (fun r => r.answerID) = t.map (fun r => r.answerID)
  | [], _, _, _, _, h => by simp [setValueFirst] at h
  | r :: rs, aid, c, v, t', h => by
    rw [setValueFirst] at h
    by_cases hr : r.answerID = aid
    · rw [if_pos hr] at h
      rcases Option.some.inj h with rfl
      rfl
    · rw [if_neg hr] at h
      rcases Option.map_eq_some'.mp h with ⟨t₀, h₀, rfl⟩
      rw [List.map_cons, List.map_cons, setValueFirst_ids rs aid c v t₀ h₀]

/-- The anonymisation postcondition for one `(AnswerID, column)` pair:
every row carrying the identifier has the sentinel in that column. -/
def anonApplied (t : List AnsRow) (aid : Int) (c : String) : Prop :=
  ∀ row ∈ t, row.answerID = aid → getCell row c = some "a"

theorem setValueFirst_establishes :
    ∀ (t : List AnsRow) (aid : Int) (c : String) (t' : List AnsRow),
      (t.map (fun r => r.answerID)).Nodup →
      setValueFirst t aid c "a" = some t' → anonApplied t' aid c
  | [], _, _, _, _, h => by simp [setValueFirst] at h
  | r :: rs, aid, c, t', hn, h => by
    rw [List.map_cons, List.nodup_cons] at hn
    rw [setValueFirst] at h
    by_cases hr : r.answerID = aid
    · rw [if_pos hr] at h
      rcases Option.some.inj h with rfl
      intro row hrow hrid
      rcases List.mem_cons.mp hrow with rfl | hrow'
      · exact getCell_setCell_same r c "a"
      · refine absurd ?_ hn.1
        rw [hr, ← hrid]
        exact List.mem_map_of_mem (fun r => r.answerID) hrow'
    · rw [if_neg hr] at h
      rcases Option.map_eq_some'.mp h with ⟨t₀, h₀, rfl⟩
      intro row hrow hrid
      rcases List.mem_cons.mp hrow with rfl | hrow'
      · exact absurd hrid hr
      · exact setValueFirst_establishes rs aid c t₀ hn.2 h₀ row hrow' hrid

theorem setValueFirst_preserves :
    ∀ (t : List AnsRow) (aid' : Int) (c' : String) (t' : List AnsRow),
      setValueFirst t aid' c' "a" = some t' →
      ∀ (aid : Int) (c : String), anonApplied t aid c → anonApplied t' aid c
  | [], _, _, _, h => by simp [setValueFirst] at h
  | r :: rs, aid', c', t', h => by
    rw [setValueFirst] at h
    by_cases hr : r.answerID = aid'
    · rw [if_pos hr] at h
      rcases Option.some.inj h with rfl
      intro aid c hprev row hrow hrid
      rcases List.mem_cons.mp hrow with rfl | hrow'
      · by_cases hc : c = c'
        · rw [hc]
          exact getCell_setCell_same r c' "a"
        · rw [getCell_setCell_other r c' "a" c hc]
          exact hprev r (List.mem_cons_self r rs) hrid
      · exact hprev row (List.mem_cons_of_mem r hrow') hrid
    · rw [if_neg hr] at h
      rcases Option.map_eq_some'.mp h with ⟨t₀, h₀, rfl⟩
      intro aid c hprev row hrow hrid
      rcases List.mem_cons.mp hrow with rfl | hrow'
      · exact hprev row (List.mem_cons_self row rs) hrid
      · exact setValueFirst_preserves rs aid' c' t₀ h₀ aid c
          (fun row' hrow' hrid' => hprev row' (List.mem_cons_of_mem r hrow') hrid')
          row hrow' hrid

theorem applyAll_preserves :
    ∀ (L : List (Int × Int)) (t t' : List AnsRow), applyAll t L = some t' →
      ∀ (aid : Int) (c : String), anonApplied t aid c → anonApplied t' aid c
  | [], t, t', h => by
    rcases Option.some.inj h with rfl
    exact fun _ _ hp => hp
  | (a, col) :: rest, t, t', h => by
    rw [applyAll] at h
    rcases hset : setValueFirst t a (toString col) "a" with _ | t₁
    · rw [hset] at h
      exact absurd h (by simp)
    · rw [hset] at h
      intro aid c hprev
      exact applyAll_preserves rest t₁ t' h aid c
        (setValueFirst_preserves t a (toString col) t₁ hset aid c hprev)

theorem applyAll_ids :
    ∀ (L : List (Int × Int)) (t t' : List AnsRow), applyAll t L = some t' →
      t'.map (fun r => r.answerID) = t.map (fun r => r.answerID)
  | [], t, t', h => by
    rcases Option.some.inj h with rfl
    rfl
  | (a, col) :: rest, t, t', h => by
    rw [applyAll] at h
    rcases hset : setValueFirst t a (toString col) "a" with _ | t₁
    · rw [hset] at h
      exact absurd h (by simp)
    · rw [hset] at h
      rw [applyAll_ids rest t₁ t' h, setValueFirst_ids t a (toString col) "a" t₁ hset]

theorem applyAll_establishes :
    ∀ (L : List (Int × Int)) (t t' : List AnsRow),
      (t.map (fun r => r.answerID)).Nodup → applyAll t L = some t' →
      ∀ q ∈ L, anonApplied t' q.1 (toString q.2)
  | [], _, _, _, _, q, hq => absurd hq (List.not_mem_nil q)
  | (a, col) :: rest, t, t', hn, h, q, hq => by
    rw [applyAll] at h
    rcases hset : setValueFirst t a (toString col) "a" with _ | t₁
    · rw [hset] at h
      exact absurd h (by simp)
    · rw [hset] at h
      have hn₁ : (t₁.map (fun r => r.answerID)).Nodup := by
        rw [setValueFirst_ids t a (toString col) "a" t₁ hset]
        exact hn
      rcases List.mem_cons.mp hq with rfl | hq'
      · exact applyAll_preserves rest t₁ t' h a (toString col)
          (setValueFirst_establishes t a (toString col) t₁ hn hset)
      · exact applyAll_establishes rest t₁ t' hn₁ h q hq'

theorem mem_qanonPairs :
    ∀ (answers : List AnswersRow) (qs : List Rule) (ar : AnswersRow) (q : Rule),
      ar ∈ answers → q ∈ qs → q.questionaireID = ar.questionaireID →
      (ar.answerID, q.columnNo) ∈ qanonPairs answers qs
  | [], _, ar, _, har, _, _ => absurd har (List.not_mem_nil ar)
  | a :: rest, qs, ar, q, har, hq, hqid => by
    rw [qanonPairs]
    rcases List.mem_cons.mp har with rfl | har'
    · refine List.mem_append_left _ (List.mem_map.mpr ⟨q, ?_, rfl⟩)
      exact List.mem_filter.mpr ⟨hq, decide_eq_true hqid⟩
    · exact List.mem_append_right _ (mem_qanonPairs rest qs ar q har' hq hqid)

/-- Claim C5: for every rule row with `anonymise = 1` marking a
`(QuestionaireID, ColumnNo)` pair, `anonAns` overwrites, in every
answer row whose `AnswerID` is linked (through the `Answers` table) to
that `QuestionaireID`, the cell in the column named by `ColumnNo` with
the sentinel `'a'`; and each mutated table is persisted under the new
name `k.lower() + '_anon'`, which differs from the source table's name
— the source tables are inputs the function never writes back.  The
`AnswerID` column is assumed to be a key of each answer table. -/
theorem anonAns_spec (blob charT : List AnsRow) (blobQs charQs : List Rule)
    (answers : List AnswersRow) (saved : List (String × List AnsRow))
    (hrun : anonAns blob charT blobQs charQs answers = some saved)
    (hnb : (blob.map (fun r => r.answerID)).Nodup)
    (hnc : (charT.map (fun r => r.answerID)).Nodup) :
    ∃ t1 t2,
      saved = [(lowerStr "Answers_blob" ++ "_anon", t1),
               (lowerStr "Answers_char" ++ "_anon", t2)] ∧
      lowerStr "Answers_blob" ++ "_anon" ≠ "Answers_blob" ∧
      lowerStr "Answers_char" ++ "_anon" ≠ "Answers_char" ∧
      (∀ q ∈ blobQs, q.anonymise = 1 → ∀ ar ∈ answers,
        ar.questionaireID = q.questionaireID →
        ∀ row ∈ t1, row.answerID = ar.answerID →
          getCell row (toString q.columnNo) = some "a") ∧
      (∀ q ∈ charQs, q.anonymise = 1 → ∀ ar ∈ answers,
        ar.questionaireID = q.questionaireID →
        ∀ row ∈ t2, row.answerID = ar.answerID →
          getCell row (toString q.columnNo) = some "a") := by
  rw [anonAns] at hrun
  rcases h1 : anonOne blob answers blobQs with _ | t1
  · rw [h1] at hrun
    exact absurd hrun (by simp)
  · rw [h1] at hrun
    rcases h2 : anonOne charT answers charQs with _ | t2
    · rw [h2] at hrun
      exact absurd hrun (by simp)
    · rw [h2] at hrun
      rcases Option.some.inj hrun with rfl
      have happly : ∀ (a : List AnsRow) (csv : List Rule) (t : List AnsRow),
          (a.map (fun r => r.answerID)).Nodup → anonOne a answers csv = some t →
          ∀ q ∈ csv, q.anonymise = 1 → ∀ ar ∈ answers,
            ar.questionaireID = q.questionaireID →
            ∀ row ∈ t, row.answerID = ar.answerID →
              getCell row (toString q.columnNo) = some "a" := by
        intro a csv t hn ht q hq hq1 ar har hqid row hrow hrid
        have hpair : (ar.answerID, q.columnNo) ∈
            qanonPairs answers (csv.filter (fun q => decide (q.anonymise = 1))) :=
          mem_qanonPairs answers _ ar q har
            (List.mem_filter.mpr ⟨hq, decide_eq_true hq1⟩) hqid.symm
        exact applyAll_establishes _ a t hn ht (ar.answerID, q.columnNo) hpair row hrow hrid
      exact ⟨t1, t2, rfl, by decide, by decide,
        happly blob blobQs t1 hnb h1, happly charT charQs t2 hnc h2⟩

/-- Claim C5 witness: on a one-row blob table with a matching rule for
column 5, the saved tables carry the sentinel and the new names. -/
theorem anonAns_spec_witness :
    ∃ t1 t2,
      [(lowerStr "Answers_blob" ++ "_anon", [AnsRow.mk 100 [("5", "a")]]),
       (lowerStr "Answers_char" ++ "_anon", ([] : List AnsRow))] =
        [(lowerStr "Answers_blob" ++ "_anon", t1),
         (lowerStr "Answers_char" ++ "_anon", t2)] ∧
      lowerStr "Answers_blob" ++ "_anon" ≠ "Answers_blob" ∧
      lowerStr "Answers_char" ++ "_anon" ≠ "Answers_char" ∧
      (∀ q ∈ [Rule.mk 1 5 1], q.anonymise = 1 → ∀ ar ∈ [AnswersRow.mk 100 1],
        ar.questionaireID = q.questionaireID →
        ∀ row ∈ t1, row.answerID = ar.answerID →
          getCell row (toString q.columnNo) = some "a") ∧
      (∀ q ∈ ([] : List Rule), q.anonymise = 1 → ∀ ar ∈ [AnswersRow.mk 100 1],
        ar.questionaireID = q.questionaireID →
        ∀ row ∈ t2, row.answerID = ar.answerID →
          getCell row (toString q.columnNo) = some "a") :=
  anonAns_spec [AnsRow.mk 100 [("5", "secret")]] [] [Rule.mk 1 5 1] []
    [AnswersRow.mk 100 1] _ (by rfl) (by decide) (by decide)
